import Mathlib

/-!
Verification of the pi-agent relay: OAuth credential store, the two SSE
streaming transcoder variants, and the chat handler's relay loop, embedded
as pure Lean functions mirroring the Go sources.

Go strings are modelled as Lean `String`; the string operations the code
performs (`strings.HasPrefix`, `strings.TrimPrefix`, `strings.TrimSpace`)
are defined over the underlying character list so that they evaluate in
the kernel.
-/

namespace PiAgent

/-- Model of Go `strings.HasPrefix line "data: "` as used by both
transcoder loops. -/
def hasDataHead (line : String) : Bool :=
  "data: ".data.isPrefixOf line.data

/-- Model of Go `strings.TrimPrefix line "data: "`, applied only after
`hasDataHead` has succeeded, so dropping the six prefix characters. -/
def dataPayload (line : String) : String :=
  ⟨line.data.drop 6⟩

/-- Model of Go `strings.TrimSpace`: remove leading and trailing
whitespace characters. -/
def goTrimSpace (s : String) : String :=
  ⟨((s.data.dropWhile Char.isWhitespace).reverse.dropWhile Char.isWhitespace).reverse⟩

/-! ## OAuth credentials (`internal/oauth/chatgpt.go`) -/

/-- `oauth.Credentials`: the resolved OAuth tokens and metadata. -/
structure Credentials where
  accessToken : String
  refreshToken : String
  expiresAt : Int
  accountID : String
deriving DecidableEq, Repr

/-- `Credentials.IsExpired`, parametrised by the current Unix time:
`time.Now().Unix() > c.ExpiresAt-300`. -/
def Credentials.isExpired (c : Credentials) (now : Int) : Bool :=
  decide (now > c.expiresAt - 300)

/-- `oauth.TokenResponse`: the raw response from the OAuth token endpoint. -/
structure TokenResponse where
  accessToken : String
  refreshToken : String
  idToken : String
  expiresIn : Int
  tokenType : String
deriving DecidableEq, Repr

/-! ## Token store (`token.Store`, src/unnamed/part_004)

The store's two observable locations are the in-memory credential
(`s.cred`) and the decoded contents of the credential file (`disk`).
`oauth.RefreshToken` and the success of `os.WriteFile` are network/IO
effects, passed in as an oracle `re` and a flag `saveOk`. -/

/-- State of a `token.Store`: in-memory credential and durable (on-disk)
credential. -/
structure StoreState where
  cred : Option Credentials
  disk : Option Credentials
deriving DecidableEq, Repr

/-- `Store.HasCredentials`: true if credentials have been loaded or stored. -/
def hasCredentials (s : StoreState) : Bool :=
  s.cred.isSome

/-- `Store.save` (lowercase): marshal `s.cred` and write it to the file;
`saveOk` models whether the write succeeds. -/
def storeWriteDisk (s : StoreState) (saveOk : Bool) : Except String StoreState :=
  if saveOk then Except.ok { s with disk := s.cred }
  else Except.error "writing credentials"

/-- `Store.Save`: set `s.cred = cred` in memory, then call `s.save()`. -/
def storeSaveCred (s : StoreState) (cred : Credentials) (saveOk : Bool) :
    Except String Unit × StoreState :=
  let s1 : StoreState := { s with cred := some cred }
  match storeWriteDisk s1 saveOk with
  | Except.ok s2 => (Except.ok (), s2)
  | Except.error e => (Except.error e, s1)

/-- Result of one `Store.AccessToken` call: the returned token or error,
the store state afterwards, and how many refresh exchanges were performed. -/
structure TokenResult where
  result : Except String String
  state : StoreState
  refreshCalls : Nat
deriving Repr

/-- `Store.AccessToken`: under the store lock, return the current access
token if it is not expired; otherwise perform the refresh exchange
(oracle `re`), update the access token, replace the refresh token only
when the provider returned a non-empty one, recompute `ExpiresAt` as
`now + ExpiresIn`, persist via `s.save()`, and return the new token. -/
def accessToken (s : StoreState) (now : Int)
    (re : String → Except String TokenResponse) (saveOk : Bool) : TokenResult :=
  match s.cred with
  | none => ⟨Except.error "no credentials stored; authenticate first", s, 0⟩
  | some c =>
    if c.isExpired now = false then
      ⟨Except.ok c.accessToken, s, 0⟩
    else
      match re c.refreshToken with
      | Except.error e => ⟨Except.error ("refreshing token: " ++ e), s, 1⟩
      | Except.ok tr =>
        let c1 : Credentials :=
          { c with
            accessToken := tr.accessToken
            refreshToken := if tr.refreshToken ≠ "" then tr.refreshToken else c.refreshToken
            expiresAt := now + tr.expiresIn }
        let s1 : StoreState := { s with cred := some c1 }
        match storeWriteDisk s1 saveOk with
        | Except.ok s2 => ⟨Except.ok c1.accessToken, s2, 1⟩
        | Except.error _ => ⟨Except.error "saving refreshed token", s1, 1⟩

/-- Sequential composition of `k` `AccessToken` calls at the same time
`now`: the store's mutex serializes concurrent callers, so the waiting
callers execute one after the other against the state the previous call
left behind. Returns all results, the final state, and the total number
of refresh exchanges. -/
def accessTokenSeq (now : Int) (re : String → Except String TokenResponse)
    (saveOk : Bool) : Nat → StoreState → List (Except String String) × StoreState × Nat
  | 0, s => ([], s, 0)
  | k + 1, s =>
    let r := accessToken s now re saveOk
    let rest := accessTokenSeq now re saveOk k r.state
    (r.result :: rest.1, rest.2.1, r.refreshCalls + rest.2.2)

/-! Concrete fixtures used by witnesses and counterexamples. -/

/-- A stored credential whose token expires at Unix time 300. -/
def cOld : Credentials := ⟨"oldTok", "r1", 300, "acct"⟩

/-- A refresh exchange oracle that always succeeds with a rotated
refresh token and a one-hour expiry. -/
def reNew : String → Except String TokenResponse :=
  fun _ => Except.ok ⟨"newTok", "r2", "", 3600, "Bearer"⟩

example : cOld.isExpired 0 = false := by decide
example : cOld.isExpired 400 = true := by decide
example : (accessToken ⟨some cOld, some cOld⟩ 0 reNew true).refreshCalls = 0 := by decide
example : (accessToken ⟨some cOld, some cOld⟩ 0 reNew true).result = Except.ok "oldTok" := by rfl
example : (accessToken ⟨some cOld, some cOld⟩ 400 reNew true).result = Except.ok "newTok" := by rfl
example : hasDataHead "data: hi" = true := by decide
example : dataPayload "data: hi" = "hi" := by decide
example : goTrimSpace "  a " = "a" := by decide
example : goTrimSpace "   " = "" := by decide

/-! ## Streaming transcoder (`internal/chat/client.go` = variant A,
src/unnamed/part_002 = variant B)

Both variants scan the upstream response body line by line, keep only
`data: `-prefixed lines, strip the prefix and JSON-decode the payload.
`json.Unmarshal` into the variant's chunk/event struct is an effectful
library call on raw bytes; it is passed in as a `decode` oracle,
returning `none` exactly when decoding fails. `scanErr` is the value of
`scanner.Err()` once the line scan stops: the read error, if any, after
the listed lines were delivered. -/

/-- `chat.StreamDelta`: a single content fragment or terminal marker. -/
structure StreamDelta where
  content : String
  done : Bool
deriving DecidableEq, Repr

/-- Variant A inner decode target: `delta` object with a `content` field. -/
structure ChunkDelta where
  content : String
deriving DecidableEq, Repr

/-- Variant A decode target: one element of `choices`. -/
structure ChunkChoice where
  delta : ChunkDelta
deriving DecidableEq, Repr

/-- Variant A decode target: the anonymous `chunk` struct with its
`choices` array. -/
structure Chunk where
  choices : List ChunkChoice
deriving DecidableEq, Repr

/-- Variant A scan loop (`chat.StreamCompletion`, legacy chat-completions
schema): deltas sent on `deltaCh` and the error sent on `errCh`, if any.
A `data: [DONE]` line emits `StreamDelta{Done:true}` and returns at once
(so `scanner.Err()` is never consulted); undecodable payloads, empty
`choices`, and empty `content` are skipped. -/
def streamLinesA (decode : String → Option Chunk) (scanErr : Option String) :
    List String → List StreamDelta × Option String
  | [] => ([], scanErr)
  | line :: rest =>
    if hasDataHead line = false then streamLinesA decode scanErr rest
    else
      if dataPayload line = "[DONE]" then ([⟨"", true⟩], none)
      else
        match decode (dataPayload line) with
        | none => streamLinesA decode scanErr rest
        | some chunk =>
          match chunk.choices.head? with
          | none => streamLinesA decode scanErr rest
          | some choice =>
            if choice.delta.content ≠ "" then
              (⟨choice.delta.content, false⟩ :: (streamLinesA decode scanErr rest).1,
               (streamLinesA decode scanErr rest).2)
            else streamLinesA decode scanErr rest

/-- Variant B decode target: one element of `response.output[].content`. -/
structure RespContent where
  text : String
deriving DecidableEq, Repr

/-- Variant B decode target: one element of `response.output`. -/
structure RespOutput where
  content : List RespContent
deriving DecidableEq, Repr

/-- Variant B decode target: the nested `response` object. -/
structure RespObj where
  output : List RespOutput
deriving DecidableEq, Repr

/-- Variant B decode target: the typed SSE event. -/
structure Event where
  type : String
  delta : String
  response : Option RespObj
deriving DecidableEq, Repr

/-- Variant B scan loop (`chat.StreamCompletion`, typed responses
schema): a `response.output_text.delta` event with non-empty `delta`
emits a content delta; a `response.completed` event emits
`StreamDelta{Done:true}` and returns at once; any other event type and
any undecodable payload is skipped. -/
def streamLinesB (decode : String → Option Event) (scanErr : Option String) :
    List String → List StreamDelta × Option String
  | [] => ([], scanErr)
  | line :: rest =>
    if hasDataHead line = false then streamLinesB decode scanErr rest
    else
      match decode (dataPayload line) with
      | none => streamLinesB decode scanErr rest
      | some ev =>
        if ev.type = "response.output_text.delta" then
          if ev.delta ≠ "" then
            (⟨ev.delta, false⟩ :: (streamLinesB decode scanErr rest).1,
             (streamLinesB decode scanErr rest).2)
          else streamLinesB decode scanErr rest
        else if ev.type = "response.completed" then
          ([⟨"", true⟩], none)
        else streamLinesB decode scanErr rest

/-! ## Chat handler (`server.handleChat`, src/unnamed/part_003) -/

/-- One downstream SSE frame written by `handleChat`. -/
inductive Frame where
  | content (s : String)
  | done
  | errFrame (msg : String)
deriving DecidableEq, Repr

/-- Whether a frame terminates the logical stream (`data: [DONE]` or a
`data: {"error": ...}` frame). -/
def Frame.isTerminal : Frame → Bool
  | Frame.done => true
  | Frame.errFrame _ => true
  | Frame.content _ => false

/-- Whether a downstream frame sequence is non-empty and ends with a
terminal frame. -/
def endsWithTerminal : List Frame → Bool
  | [] => false
  | [f] => f.isTerminal
  | _ :: f :: rest => endsWithTerminal (f :: rest)

/-- The relay loop of `handleChat`: range over the delta channel, writing
a `content` frame per delta and breaking with a `[DONE]` frame on a done
delta; when the channel closes without a done delta, the `select` on the
already-closed error channel yields the stream error, if one was sent,
and writes it as a terminal error frame — otherwise nothing more is
written. -/
def relayFrames : List StreamDelta → Option String → List Frame
  | [], some e => [Frame.errFrame e]
  | [], none => []
  | d :: rest, err =>
    if d.done then [Frame.done]
    else Frame.content d.content :: relayFrames rest err

/-- The content accumulated by `handleChat`'s `fullResponse` builder:
contents of the deltas consumed before the done marker. -/
def accumContent : List StreamDelta → String
  | [] => ""
  | d :: rest => if d.done then "" else d.content ++ accumContent rest

/-- `server.ChatRequest`: the decoded JSON body of `POST /chat`. -/
structure ChatRequest where
  message : String
  conversationID : String
deriving DecidableEq, Repr

/-- The HTTP response `handleChat` produces, reduced to its observable
shape: an early error status, or a committed SSE stream of frames. -/
inductive ChatResponse where
  | badRequest (body : String)
  | unauthorized (body : String)
  | internalError (body : String)
  | stream (frames : List Frame)
deriving DecidableEq, Repr

/-- The externally visible effects of one `handleChat` call: calls to
`ts.AccessToken`, user-message inserts `(conversationID, content)`,
history loads, upstream transcoder streams opened, and assistant-message
inserts. -/
structure Effects where
  tokenCalls : Nat
  userInserts : List (String × String)
  historyLoads : List String
  streamOpens : Nat
  assistantInserts : List (String × String)
deriving DecidableEq, Repr

/-- The collaborators of one `handleChat` call, as oracles: the token
store result, whether the user-message insert succeeds, the history
load result (contents only), the transcoder's delta sequence and error,
and whether the assistant insert succeeds. -/
structure ChatEnv where
  tokenResult : Except String String
  addUserOk : Bool
  historyResult : Except String (List (String × String))
  streamDeltas : List StreamDelta
  streamErr : Option String
  addAssistantOk : Bool

/-- `server.handleChat`: decode the body (`none` = invalid JSON), reject
a blank message, resolve the conversation id, acquire an access token,
persist the user turn, load history, open the transcoder stream and
relay its deltas, then persist the accumulated assistant text when the
stream ended without an error frame and the text is non-empty. -/
def handleChat (env : ChatEnv) (defaultConvID : String)
    (body : Option ChatRequest) : ChatResponse × Effects :=
  match body with
  | none => (ChatResponse.badRequest "invalid JSON body", ⟨0, [], [], 0, []⟩)
  | some req =>
    if goTrimSpace req.message = "" then
      (ChatResponse.badRequest "message is required", ⟨0, [], [], 0, []⟩)
    else
      let convID := if req.conversationID = "" then defaultConvID else req.conversationID
      match env.tokenResult with
      | Except.error e =>
        (ChatResponse.unauthorized ("authentication error: " ++ e), ⟨1, [], [], 0, []⟩)
      | Except.ok _ =>
        if env.addUserOk = false then
          (ChatResponse.internalError "internal error",
            ⟨1, [(convID, req.message)], [], 0, []⟩)
        else
          match env.historyResult with
          | Except.error _ =>
            (ChatResponse.internalError "internal error",
              ⟨1, [(convID, req.message)], [convID], 0, []⟩)
          | Except.ok _hist =>
            let frames := relayFrames env.streamDeltas env.streamErr
            let sawDone := env.streamDeltas.any (fun d => d.done)
            let failed := !sawDone && env.streamErr.isSome
            let full := accumContent env.streamDeltas
            let asst := if failed = false ∧ full ≠ "" then [(convID, full)] else []
            (ChatResponse.stream frames,
              ⟨1, [(convID, req.message)], [convID], 1, asst⟩)

example :
    streamLinesA (fun _ => none) none ["data: [DONE]"] = ([⟨"", true⟩], none) := by
  decide

example :
    relayFrames [⟨"hi", false⟩] none = [Frame.content "hi"] := by decide

example :
    endsWithTerminal (relayFrames [⟨"hi", false⟩] none) = false := by decide

/-- A concrete variant A decoder: the outcome of `json.Unmarshal` on two
well-formed chunk payloads; every other payload (including the non-JSON
`[DONE]` sentinel) fails to decode. -/
def decA : String → Option Chunk := fun s =>
  if s = "chunkHello" then some ⟨[⟨⟨"Hello"⟩⟩]⟩
  else if s = "chunkWorld" then some ⟨[⟨⟨" world"⟩⟩]⟩
  else none

/-- A concrete variant B decoder: a text delta event, an event of an
unrelated type, and a completed event; every other payload fails to
decode. -/
def decB : String → Option Event := fun s =>
  if s = "evHello" then some ⟨"response.output_text.delta", "Hello", none⟩
  else if s = "evPing" then some ⟨"response.in_progress", "", none⟩
  else if s = "evDone" then some ⟨"response.completed", "", some ⟨[]⟩⟩
  else none

/-- A refresh exchange oracle that is always rejected. -/
def reFail : String → Except String TokenResponse :=
  fun _ => Except.error "denied"

/-- The credential `Store.AccessToken` installs after a successful
refresh exchange at time `now`. -/
def refreshedCred (c : Credentials) (tr : TokenResponse) (now : Int) : Credentials :=
  ⟨tr.accessToken,
   if tr.refreshToken ≠ "" then tr.refreshToken else c.refreshToken,
   now + tr.expiresIn, c.accountID⟩

/-- Concatenation of a list of strings, in order. -/
def concatStrings : List String → String
  | [] => ""
  | x :: rest => x ++ concatStrings rest

/-- Concatenation of the contents of the non-done deltas, in order. -/
def contentConcat : List StreamDelta → String
  | [] => ""
  | d :: rest => (if d.done then "" else d.content) ++ contentConcat rest

/-- Concatenation of the second components of payload/content pairs. -/
def payloadConcat : List (String × String) → String
  | [] => ""
  | pc :: rest => pc.2 ++ payloadConcat rest

/-! ## Claim C1 — refresh boundary of `Store.AccessToken` -/

/-- Claim C1, counterexample: at `now = 0` with `expiresAt = 300` we have
`now >= expiresAt - 300`, so the claim requires a refresh exchange and a
new token; the code's `IsExpired` test is strict (`now > expiresAt-300`),
so it performs no refresh and returns the old token with the state
untouched. -/
theorem accessToken_boundary_counterexample :
    ((0 : Int) ≥ cOld.expiresAt - 300) ∧
    (accessToken ⟨some cOld, some cOld⟩ 0 reNew true).refreshCalls = 0 ∧
    (accessToken ⟨some cOld, some cOld⟩ 0 reNew true).result = Except.ok "oldTok" ∧
    (accessToken ⟨some cOld, some cOld⟩ 0 reNew true).state = ⟨some cOld, some cOld⟩ :=
  ⟨by decide, by decide, by rfl, by decide⟩

/-- Claim C1 (amended): a single `AccessToken()` call returns the stored
access token unchanged and performs no refresh exchange when
`now <= expiresAt - 300`; when `now > expiresAt - 300` it performs one
refresh exchange, updates the access token, replaces the refresh token
only if the provider returned a non-empty one, recomputes `expiresAt` as
`now + expires_in`, persists the credential, and returns the new token. -/
theorem accessToken_refresh_boundary (c : Credentials) (disk : Option Credentials)
    (now : Int) (re : String → Except String TokenResponse) (tr : TokenResponse)
    (hre : re c.refreshToken = Except.ok tr) :
    (now ≤ c.expiresAt - 300 →
      accessToken ⟨some c, disk⟩ now re true =
        ⟨Except.ok c.accessToken, ⟨some c, disk⟩, 0⟩) ∧
    (now > c.expiresAt - 300 →
      accessToken ⟨some c, disk⟩ now re true =
        ⟨Except.ok tr.accessToken,
         ⟨some ⟨tr.accessToken,
               if tr.refreshToken ≠ "" then tr.refreshToken else c.refreshToken,
               now + tr.expiresIn, c.accountID⟩,
          some ⟨tr.accessToken,
               if tr.refreshToken ≠ "" then tr.refreshToken else c.refreshToken,
               now + tr.expiresIn, c.accountID⟩⟩,
         1⟩) := by
  constructor
  · intro h
    have hexp : c.isExpired now = false := by
      simp only [Credentials.isExpired, decide_eq_false_iff_not]; omega
    simp [accessToken, hexp]
  · intro h
    have hexp : c.isExpired now = true := by
      simp only [Credentials.isExpired, decide_eq_true_eq]; omega
    simp [accessToken, hexp, hre, storeWriteDisk]

/-- Witness for `accessToken_refresh_boundary` at a concrete expired
credential. -/
theorem accessToken_refresh_boundary_witness :
    accessToken ⟨some cOld, some cOld⟩ 400 reNew true =
      ⟨Except.ok "newTok",
       ⟨some ⟨"newTok", "r2", 4000, "acct"⟩, some ⟨"newTok", "r2", 4000, "acct"⟩⟩, 1⟩ :=
  (accessToken_refresh_boundary cOld (some cOld) 400 reNew
    ⟨"newTok", "r2", "", 3600, "Bearer"⟩ rfl).2 (by decide)

/-! ## Claim C6 — blank message is rejected with no effects -/

/-- Claim C6: a `POST /chat` whose message is blank after trimming
returns the validation failure and performs no other effect: no token
store call, no user-message insert, no history load, no upstream stream. -/
theorem chat_blank_message_no_effects (env : ChatEnv) (defaultConvID : String)
    (req : ChatRequest) (h : goTrimSpace req.message = "") :
    handleChat env defaultConvID (some req) =
      (ChatResponse.badRequest "message is required", ⟨0, [], [], 0, []⟩) := by
  simp [handleChat, h]

/-- Witness for `chat_blank_message_no_effects` on a whitespace message. -/
theorem chat_blank_message_no_effects_witness :
    handleChat ⟨Except.ok "tok", true, Except.ok [], [⟨"hi", false⟩], none, true⟩
        "conv" (some ⟨" ", "c1"⟩) =
      (ChatResponse.badRequest "message is required", ⟨0, [], [], 0, []⟩) :=
  chat_blank_message_no_effects _ _ _ (by decide)

/-! ## Claim C7 — failed refresh or save never clears the credential -/

/-- Claim C7, counterexample: when the refresh exchange succeeds but
persisting fails, `AccessToken` surfaces an error and the store still
has credentials, but the in-memory credential is the refreshed one, not
the one held before the failed call. -/
theorem accessToken_save_failure_counterexample :
    (accessToken ⟨some cOld, some cOld⟩ 400 reNew false).result =
      Except.error "saving refreshed token" ∧
    hasCredentials (accessToken ⟨some cOld, some cOld⟩ 400 reNew false).state = true ∧
    (accessToken ⟨some cOld, some cOld⟩ 400 reNew false).state.cred ≠ some cOld :=
  ⟨by rfl, by decide, by decide⟩

/-- Claim C7 (amended): if `AccessToken()` fails the error is surfaced
and the credential is never cleared — `HasCredentials()` stays true. On
a rejected refresh exchange the stored credential is exactly the one
held before the call; on a failed persist the store holds the refreshed
credential in memory while the durable copy is unchanged. -/
theorem accessToken_failure_keeps_credentials (c : Credentials)
    (disk : Option Credentials) (now : Int)
    (re : String → Except String TokenResponse)
    (hexp : c.isExpired now = true) :
    (∀ e, re c.refreshToken = Except.error e →
      (accessToken ⟨some c, disk⟩ now re true).result =
          Except.error ("refreshing token: " ++ e) ∧
      (accessToken ⟨some c, disk⟩ now re true).state = ⟨some c, disk⟩ ∧
      hasCredentials (accessToken ⟨some c, disk⟩ now re true).state = true) ∧
    (∀ tr, re c.refreshToken = Except.ok tr →
      (accessToken ⟨some c, disk⟩ now re false).result =
          Except.error "saving refreshed token" ∧
      hasCredentials (accessToken ⟨some c, disk⟩ now re false).state = true ∧
      (accessToken ⟨some c, disk⟩ now re false).state.disk = disk) := by
  constructor
  · intro e hre
    simp [accessToken, hexp, hre, hasCredentials]
  · intro tr hre
    simp [accessToken, hexp, hre, storeWriteDisk, hasCredentials]

/-- Witness for `accessToken_failure_keeps_credentials` on both failure
modes at a concrete expired credential. -/
theorem accessToken_failure_keeps_credentials_witness :
    ((accessToken ⟨some cOld, some cOld⟩ 400 reFail true).result =
        Except.error ("refreshing token: " ++ "denied") ∧
      (accessToken ⟨some cOld, some cOld⟩ 400 reFail true).state =
        ⟨some cOld, some cOld⟩ ∧
      hasCredentials (accessToken ⟨some cOld, some cOld⟩ 400 reFail true).state = true) ∧
    ((accessToken ⟨some cOld, some cOld⟩ 400 reNew false).result =
        Except.error "saving refreshed token" ∧
      hasCredentials (accessToken ⟨some cOld, some cOld⟩ 400 reNew false).state = true ∧
      (accessToken ⟨some cOld, some cOld⟩ 400 reNew false).state.disk = some cOld) :=
  ⟨(accessToken_failure_keeps_credentials cOld (some cOld) 400 reFail (by decide)).1
      "denied" rfl,
   (accessToken_failure_keeps_credentials cOld (some cOld) 400 reNew (by decide)).2
      ⟨"newTok", "r2", "", 3600, "Bearer"⟩ rfl⟩

/-! ## Claim C10 — a failed `Save` leaves memory and disk diverged -/

/-- Claim C10: `Store.Save` installs the credential in memory before the
durable write, so when the write fails it returns an error while
`HasCredentials()` is true, the durable copy is unchanged, and a later
`AccessToken()` call (inside the fresh window) serves the new,
never-persisted credential without any refresh exchange. -/
theorem save_failure_diverges (s : StoreState) (cred : Credentials) (now : Int)
    (re : String → Except String TokenResponse)
    (hfresh : cred.isExpired now = false) :
    (storeSaveCred s cred false).1 = Except.error "writing credentials" ∧
    hasCredentials (storeSaveCred s cred false).2 = true ∧
    (storeSaveCred s cred false).2.cred = some cred ∧
    (storeSaveCred s cred false).2.disk = s.disk ∧
    (accessToken (storeSaveCred s cred false).2 now re true).result =
      Except.ok cred.accessToken ∧
    (accessToken (storeSaveCred s cred false).2 now re true).refreshCalls = 0 := by
  simp [storeSaveCred, storeWriteDisk, hasCredentials, accessToken, hfresh]

/-- Witness for `save_failure_diverges` on a concrete fresh credential
saved into an empty store. -/
theorem save_failure_diverges_witness :
    (storeSaveCred ⟨none, none⟩ cOld false).1 = Except.error "writing credentials" ∧
    hasCredentials (storeSaveCred ⟨none, none⟩ cOld false).2 = true ∧
    (storeSaveCred ⟨none, none⟩ cOld false).2.cred = some cOld ∧
    (storeSaveCred ⟨none, none⟩ cOld false).2.disk = none ∧
    (accessToken (storeSaveCred ⟨none, none⟩ cOld false).2 0 reNew true).result =
      Except.ok "oldTok" ∧
    (accessToken (storeSaveCred ⟨none, none⟩ cOld false).2 0 reNew true).refreshCalls = 0 :=
  save_failure_diverges ⟨none, none⟩ cOld 0 reNew (by decide)

/-! ## Claim C8 — concurrent callers collapse into one refresh -/

/-- Any number of serialized `AccessToken` calls against a non-expired
credential return it unchanged and perform no refresh exchange. -/
theorem accessTokenSeq_fresh (now : Int) (re : String → Except String TokenResponse)
    (c : Credentials) (disk : Option Credentials) (k : Nat)
    (hfresh : c.isExpired now = false) :
    accessTokenSeq now re true k ⟨some c, disk⟩ =
      (List.replicate k (Except.ok c.accessToken), ⟨some c, disk⟩, 0) := by
  induction k with
  | zero => simp [accessTokenSeq]
  | succ k ih =>
    simp [accessTokenSeq, accessToken, hfresh, ih, List.replicate_succ]

/-- Claim C8: when callers serialized by the store lock all arrive at
time `now` inside the expired window, exactly one refresh exchange is
performed in total and every caller — the one that refreshed and all the
waiting ones — receives the refreshed token, provided the provider's
response is accepted, persists, and carries an `expires_in` of at least
the 300-second early-refresh margin. -/
theorem concurrent_refresh_collapses (c : Credentials) (disk : Option Credentials)
    (now : Int) (re : String → Except String TokenResponse) (tr : TokenResponse)
    (k : Nat)
    (hexp : c.isExpired now = true)
    (hre : re c.refreshToken = Except.ok tr)
    (hmargin : tr.expiresIn ≥ 300) :
    (accessTokenSeq now re true (k + 1) ⟨some c, disk⟩).2.2 = 1 ∧
    ∀ x ∈ (accessTokenSeq now re true (k + 1) ⟨some c, disk⟩).1,
      x = Except.ok tr.accessToken := by
  have hfresh : (refreshedCred c tr now).isExpired now = false := by
    simp only [refreshedCred, Credentials.isExpired, decide_eq_false_iff_not]
    omega
  have hstep :
      accessToken ⟨some c, disk⟩ now re true =
        ⟨Except.ok tr.accessToken,
         ⟨some (refreshedCred c tr now), some (refreshedCred c tr now)⟩, 1⟩ := by
    simp [accessToken, hexp, hre, storeWriteDisk, refreshedCred]
  have hrest := accessTokenSeq_fresh now re (refreshedCred c tr now)
    (some (refreshedCred c tr now)) k hfresh
  have hacc : (refreshedCred c tr now).accessToken = tr.accessToken := rfl
  constructor
  · simp only [accessTokenSeq]
    rw [hstep]
    simp only [hrest]
  · intro x hx
    simp only [accessTokenSeq] at hx
    rw [hstep] at hx
    simp only [hrest, hacc, List.mem_cons] at hx
    rcases hx with rfl | hx
    · rfl
    · exact List.eq_of_mem_replicate hx

/-- Witness for `concurrent_refresh_collapses`: three serialized callers
at time 400 against a credential that expired at 300 trigger a single
refresh, and all of them receive the new token. -/
theorem concurrent_refresh_collapses_witness :
    (accessTokenSeq 400 reNew true 3 ⟨some cOld, some cOld⟩).2.2 = 1 ∧
    ∀ x ∈ (accessTokenSeq 400 reNew true 3 ⟨some cOld, some cOld⟩).1,
      x = Except.ok "newTok" :=
  concurrent_refresh_collapses cOld (some cOld) 400 reNew
    ⟨"newTok", "r2", "", 3600, "Bearer"⟩ 2 (by decide) rfl (by decide)

/-! ## Line-shape lemmas shared by the stream claims -/

/-- A line built as `"data: " ++ p` passes the data-line check. -/
theorem hasDataHead_append (p : String) : hasDataHead ("data: " ++ p) = true := by
  simp only [hasDataHead, String.data_append]
  exact List.isPrefixOf_iff_prefix.mpr (List.prefix_append _ _)

/-- Stripping the prefix from `"data: " ++ p` recovers `p`. -/
theorem dataPayload_append (p : String) : dataPayload ("data: " ++ p) = p := by
  have h6 : "data: ".data.length = 6 := by decide
  simp only [dataPayload, String.data_append]
  rw [← h6, List.drop_left]

/-! ## Claim C2 — the downstream stream's terminal frame -/

/-- Claim C2, counterexample: an upstream body that delivers one valid
content frame and then ends without a done event and without a read
error produces a single non-done delta and no error; relaying it writes
only the content frame, so the downstream output has no terminal frame
at all — neither `[DONE]` nor an error frame. -/
theorem relay_no_terminal_counterexample :
    streamLinesA decA none ["data: chunkHello"] = ([⟨"Hello", false⟩], none) ∧
    relayFrames [⟨"Hello", false⟩] none = [Frame.content "Hello"] ∧
    endsWithTerminal [Frame.content "Hello"] = false := by decide

/-- Claim C2 (amended): once streaming has begun, the downstream output
ends with a terminal frame — `[DONE]` or an error frame — whenever the
upstream delta sequence contains a done marker or the error channel
carries an error; when the upstream body ends with neither, the handler
emits no terminal frame and simply stops writing. -/
theorem relay_terminal_on_done_or_error (ds : List StreamDelta) (err : Option String)
    (h : (∃ d ∈ ds, d.done = true) ∨ err ≠ none) :
    endsWithTerminal (relayFrames ds err) = true := by
  induction ds with
  | nil =>
    rcases h with ⟨d, hd, _⟩ | herr
    · simp at hd
    · cases err with
      | none => simp at herr
      | some e => simp [relayFrames, endsWithTerminal, Frame.isTerminal]
  | cons d rest ih =>
    by_cases hd : d.done = true
    · simp [relayFrames, hd, endsWithTerminal, Frame.isTerminal]
    · have h' : (∃ x ∈ rest, x.done = true) ∨ err ≠ none := by
        rcases h with ⟨x, hx, hxd⟩ | herr
        · rcases List.mem_cons.mp hx with rfl | hx'
          · exact absurd hxd hd
          · exact Or.inl ⟨x, hx', hxd⟩
        · exact Or.inr herr
      have hrec := ih h'
      cases hX : relayFrames rest err with
      | nil => rw [hX] at hrec; simp [endsWithTerminal] at hrec
      | cons f fs =>
        rw [hX] at hrec
        simpa [relayFrames, hd, hX, endsWithTerminal] using hrec

/-- Witness for `relay_terminal_on_done_or_error` on a done-terminated
delta sequence. -/
theorem relay_terminal_on_done_or_error_witness :
    endsWithTerminal (relayFrames [⟨"", true⟩] none) = true :=
  relay_terminal_on_done_or_error [⟨"", true⟩] none
    (Or.inl ⟨⟨"", true⟩, by decide, rfl⟩)

/-! ## Claim C9 — emitted non-done deltas have non-empty content -/

/-- Variant A never emits a non-done delta with empty content: the loop
guards on `chunk.Choices[0].Delta.Content != ""`. -/
theorem streamLinesA_content_ne (decode : String → Option Chunk)
    (scanErr : Option String) :
    ∀ lines d, d ∈ (streamLinesA decode scanErr lines).1 → d.done = false →
      d.content ≠ "" := by
  intro lines
  induction lines with
  | nil => intro d hd; simp [streamLinesA] at hd
  | cons line rest ih =>
    intro d hd hdone
    simp only [streamLinesA] at hd
    split at hd
    · exact ih d hd hdone
    · split at hd
      · simp at hd
        rw [hd] at hdone
        simp at hdone
      · split at hd
        · exact ih d hd hdone
        · split at hd
          · exact ih d hd hdone
          · split at hd
            · simp only [List.mem_cons] at hd
              rcases hd with rfl | hd
              · assumption
              · exact ih d hd hdone
            · exact ih d hd hdone

/-- Variant B never emits a non-done delta with empty content: the loop
guards on `event.Delta != ""`. -/
theorem streamLinesB_content_ne (decode : String → Option Event)
    (scanErr : Option String) :
    ∀ lines d, d ∈ (streamLinesB decode scanErr lines).1 → d.done = false →
      d.content ≠ "" := by
  intro lines
  induction lines with
  | nil => intro d hd; simp [streamLinesB] at hd
  | cons line rest ih =>
    intro d hd hdone
    simp only [streamLinesB] at hd
    split at hd
    · exact ih d hd hdone
    · split at hd
      · exact ih d hd hdone
      · split at hd
        · split at hd
          · simp only [List.mem_cons] at hd
            rcases hd with rfl | hd
            · assumption
            · exact ih d hd hdone
          · exact ih d hd hdone
        · split at hd
          · simp at hd
            rw [hd] at hdone
            simp at hdone
          · exact ih d hd hdone

/-- Claim C9: every delta either transcoder variant emits with
`done = false` has non-empty content — frames with empty `content`
(variant A) or empty `delta` (variant B), or with no `choices`, produce
no emitted delta at all. -/
theorem deltas_nonempty_content :
    (∀ (decode : String → Option Chunk) (scanErr : Option String)
        (lines : List String) (d : StreamDelta),
        d ∈ (streamLinesA decode scanErr lines).1 → d.done = false →
          d.content ≠ "") ∧
    (∀ (decode : String → Option Event) (scanErr : Option String)
        (lines : List String) (d : StreamDelta),
        d ∈ (streamLinesB decode scanErr lines).1 → d.done = false →
          d.content ≠ "") :=
  ⟨fun decode scanErr => streamLinesA_content_ne decode scanErr,
   fun decode scanErr => streamLinesB_content_ne decode scanErr⟩

/-- Witness for `deltas_nonempty_content` at a concrete emitted delta. -/
theorem deltas_nonempty_content_witness : ("Hello" : String) ≠ "" :=
  deltas_nonempty_content.1 decA none ["data: chunkHello"] ⟨"Hello", false⟩
    (by decide) rfl

/-! ## Claim C5 — undecodable frames are skipped -/

/-- Claim C5, counterexample: the literal `[DONE]` is not valid JSON, so
a `data: [DONE]` line is a line "whose payload is not valid JSON"; yet
placed between two valid variant A frames it terminates the stream
rather than being skipped — the second valid frame is never emitted. -/
theorem malformed_line_counterexample :
    decA "[DONE]" = none ∧
    streamLinesA decA none ["data: chunkHello", "data: [DONE]", "data: chunkWorld"] =
      ([⟨"Hello", false⟩, ⟨"", true⟩], none) ∧
    streamLinesA decA none ["data: chunkHello", "data: chunkWorld"] =
      ([⟨"Hello", false⟩, ⟨" world", false⟩], none) := by decide

/-- Claim C5 (amended): in both variants, a `data:` line whose payload
fails to decode — and, in variant A, is not the literal `[DONE]`
terminator, which is recognized before JSON decoding — does not abort
the stream and contributes no delta: the output is exactly the output on
the same input with the line removed. -/
theorem malformed_line_skipped :
    (∀ (decode : String → Option Chunk) (scanErr : Option String)
        (pre post : List String) (p : String),
        decode p = none → p ≠ "[DONE]" →
        streamLinesA decode scanErr (pre ++ ("data: " ++ p) :: post) =
          streamLinesA decode scanErr (pre ++ post)) ∧
    (∀ (decode : String → Option Event) (scanErr : Option String)
        (pre post : List String) (p : String),
        decode p = none →
        streamLinesB decode scanErr (pre ++ ("data: " ++ p) :: post) =
          streamLinesB decode scanErr (pre ++ post)) := by
  constructor
  · intro decode scanErr pre post p hdec hne
    induction pre with
    | nil =>
      simp [streamLinesA, hasDataHead_append, dataPayload_append, hdec, hne]
    | cons line pre ih =>
      simp only [List.cons_append, streamLinesA]
      split
      · exact ih
      · split
        · rfl
        · split
          · exact ih
          · split
            · exact ih
            · split
              · simp only [List.append_eq, ih]
              · exact ih
  · intro decode scanErr pre post p hdec
    induction pre with
    | nil =>
      simp [streamLinesB, hasDataHead_append, dataPayload_append, hdec]
    | cons line pre ih =>
      simp only [List.cons_append, streamLinesB]
      split
      · exact ih
      · split
        · exact ih
        · split
          · split
            · simp only [List.append_eq, ih]
            · exact ih
          · split
            · rfl
            · exact ih

/-- Witness for `malformed_line_skipped` on concrete undecodable
payloads in both variants. -/
theorem malformed_line_skipped_witness :
    streamLinesA decA none
        (["data: chunkHello"] ++ ("data: " ++ "garbage") :: ["data: chunkWorld"]) =
      streamLinesA decA none (["data: chunkHello"] ++ ["data: chunkWorld"]) ∧
    streamLinesB decB none
        (["data: evHello"] ++ ("data: " ++ "garbage") :: ["data: evDone"]) =
      streamLinesB decB none (["data: evHello"] ++ ["data: evDone"]) :=
  ⟨malformed_line_skipped.1 decA none ["data: chunkHello"] ["data: chunkWorld"]
      "garbage" rfl (by decide),
   malformed_line_skipped.2 decB none ["data: evHello"] ["data: evDone"]
      "garbage" rfl⟩

/-! ## Claim C3 — variant A on a well-formed stream -/

/-- Closed form of variant A on a well-formed stream: each listed pair
`(payload, content)` decodes to a chunk whose first choice carries
`content`, and the stream ends with `data: [DONE]`. The output is the
non-empty contents in wire order followed by the single done delta, with
no error. -/
theorem streamLinesA_wf (decode : String → Option Chunk) (scanErr : Option String)
    (pairs : List (String × String))
    (hval : ∀ pc ∈ pairs, pc.1 ≠ "[DONE]" ∧
      ∃ more, decode pc.1 = some ⟨⟨⟨pc.2⟩⟩ :: more⟩) :
    streamLinesA decode scanErr
        (pairs.map (fun pc => "data: " ++ pc.1) ++ ["data: [DONE]"]) =
      (((pairs.map Prod.snd).filter (fun c => c ≠ "")).map
          (fun c => StreamDelta.mk c false) ++ [⟨"", true⟩], none) := by
  induction pairs with
  | nil => rfl
  | cons pc pairs ih =>
    obtain ⟨hne, more, hdec⟩ := hval pc (List.mem_cons_self pc pairs)
    have ih' := ih (fun x hx => hval x (List.mem_cons_of_mem pc hx))
    by_cases hc : pc.2 = ""
    · simp [streamLinesA, hasDataHead_append, dataPayload_append, hne, hdec, hc, ih']
    · simp [streamLinesA, hasDataHead_append, dataPayload_append, hne, hdec, hc, ih']

/-- Filtering out empty strings does not change the concatenation. -/
theorem concatStrings_filter (L : List String) :
    concatStrings (L.filter (fun c => c ≠ "")) = concatStrings L := by
  induction L with
  | nil => rfl
  | cons x L ih =>
    by_cases hx : x = ""
    · subst hx
      simpa [concatStrings, String.empty_append] using ih
    · simp only [ne_eq, decide_not] at ih
      simp [concatStrings, hx, ih]

/-- Contents of a non-done delta list built from a string list, closed
by the done delta, concatenate to the string list's concatenation. -/
theorem contentConcat_map_done (L : List String) :
    contentConcat (L.map (fun c => StreamDelta.mk c false) ++ [⟨"", true⟩]) =
      concatStrings L := by
  induction L with
  | nil => rfl
  | cons x L ih => simp [contentConcat, concatStrings, ih]

/-- The pairwise content concatenation is the concatenation of the
second components. -/
theorem payloadConcat_eq (pairs : List (String × String)) :
    payloadConcat pairs = concatStrings (pairs.map Prod.snd) := by
  induction pairs with
  | nil => rfl
  | cons pc pairs ih => simp [payloadConcat, concatStrings, ih]

/-- Claim C3: on a finite SSE input of valid variant A frames — pair
`(payload, content)` meaning the payload is valid JSON (in particular
not the `[DONE]` sentinel) whose `choices[0].delta.content` is
`content` — followed by `data: [DONE]`, variant A emits deltas whose
concatenated content equals the concatenation of all `delta.content`
values in wire order, followed by exactly one done delta, with nothing
after it and no error. -/
theorem variantA_wellformed_stream (decode : String → Option Chunk)
    (scanErr : Option String) (pairs : List (String × String))
    (hval : ∀ pc ∈ pairs, pc.1 ≠ "[DONE]" ∧
      ∃ more, decode pc.1 = some ⟨⟨⟨pc.2⟩⟩ :: more⟩) :
    contentConcat (streamLinesA decode scanErr
        (pairs.map (fun pc => "data: " ++ pc.1) ++ ["data: [DONE]"])).1 =
      payloadConcat pairs ∧
    (∃ nonfinal, (streamLinesA decode scanErr
        (pairs.map (fun pc => "data: " ++ pc.1) ++ ["data: [DONE]"])).1 =
        nonfinal ++ [⟨"", true⟩] ∧ ∀ d ∈ nonfinal, d.done = false) ∧
    (streamLinesA decode scanErr
        (pairs.map (fun pc => "data: " ++ pc.1) ++ ["data: [DONE]"])).2 = none := by
  rw [streamLinesA_wf decode scanErr pairs hval]
  refine ⟨?_, ⟨_, rfl, ?_⟩, rfl⟩
  · rw [contentConcat_map_done, concatStrings_filter, payloadConcat_eq]
  · intro d hd
    obtain ⟨c, _, rfl⟩ := List.mem_map.mp hd
    rfl

/-- Witness for `variantA_wellformed_stream` on two concrete frames. -/
theorem variantA_wellformed_stream_witness :
    contentConcat (streamLinesA decA none
        ([("chunkHello", "Hello"), ("chunkWorld", " world")].map
          (fun pc => "data: " ++ pc.1) ++ ["data: [DONE]"])).1 = "Hello world" ∧
    (streamLinesA decA none
        ([("chunkHello", "Hello"), ("chunkWorld", " world")].map
          (fun pc => "data: " ++ pc.1) ++ ["data: [DONE]"])).2 = none := by
  have h := variantA_wellformed_stream decA none
    [("chunkHello", "Hello"), ("chunkWorld", " world")] ?hval
  case hval =>
    intro pc hpc
    rcases List.mem_cons.mp hpc with rfl | hpc
    · exact ⟨by decide, [], rfl⟩
    · rcases List.mem_cons.mp hpc with rfl | hpc
      · exact ⟨by decide, [], rfl⟩
      · simp at hpc
  exact ⟨h.1.trans (by decide), h.2.2⟩

/-! ## Claim C4 — variant B: delta, ignored events, completed -/

/-- Variant B skips every `data:` frame whose event type is neither the
text delta type nor the completion type. -/
theorem streamLinesB_ignored (decode : String → Option Event)
    (scanErr : Option String) (mids rest : List String)
    (hm : ∀ m ∈ mids, ∃ em, decode m = some em ∧
        em.type ≠ "response.output_text.delta" ∧ em.type ≠ "response.completed") :
    streamLinesB decode scanErr (mids.map (fun m => "data: " ++ m) ++ rest) =
      streamLinesB decode scanErr rest := by
  induction mids with
  | nil => rfl
  | cons m mids ih =>
    obtain ⟨em, hdec, ht1, ht2⟩ := hm m (List.mem_cons_self m mids)
    have ih' := ih (fun x hx => hm x (List.mem_cons_of_mem m hx))
    simp [streamLinesB, hasDataHead_append, dataPayload_append, hdec, ht1, ht2, ih']

/-- Claim C4: a `response.output_text.delta` frame carrying
`delta = "Hello"`, followed by any frames of other event types, followed
by a `response.completed` frame, yields exactly
`[(content "Hello", done false), (content "", done true)]` and no error;
the other-typed events are ignored without error. -/
theorem variantB_delta_completed (decode : String → Option Event)
    (scanErr : Option String) (p1 p2 : String) (mids : List String) (e1 e2 : Event)
    (h1 : decode p1 = some e1)
    (h1t : e1.type = "response.output_text.delta") (h1d : e1.delta = "Hello")
    (hm : ∀ m ∈ mids, ∃ em, decode m = some em ∧
        em.type ≠ "response.output_text.delta" ∧ em.type ≠ "response.completed")
    (h2 : decode p2 = some e2) (h2t : e2.type = "response.completed") :
    streamLinesB decode scanErr
        (("data: " ++ p1) :: (mids.map (fun m => "data: " ++ m) ++ ["data: " ++ p2])) =
      ([⟨"Hello", false⟩, ⟨"", true⟩], none) := by
  have hmid := streamLinesB_ignored decode scanErr mids ["data: " ++ p2] hm
  simp [streamLinesB, hasDataHead_append, dataPayload_append, h1, h1t, h1d, hmid,
    h2, h2t]

/-- Witness for `variantB_delta_completed` with one ignored event
between the delta and the completion. -/
theorem variantB_delta_completed_witness :
    streamLinesB decB none
        (("data: " ++ "evHello") ::
          (["evPing"].map (fun m => "data: " ++ m) ++ ["data: " ++ "evDone"])) =
      ([⟨"Hello", false⟩, ⟨"", true⟩], none) := by
  refine variantB_delta_completed decB none "evHello" "evDone" ["evPing"]
    ⟨"response.output_text.delta", "Hello", none⟩
    ⟨"response.completed", "", some ⟨[]⟩⟩ rfl rfl rfl ?_ rfl rfl
  intro m hmem
  have hm : m = "evPing" := List.mem_singleton.mp hmem
  subst hm
  exact ⟨⟨"response.in_progress", "", none⟩, rfl, by decide, by decide⟩

end PiAgent
